import Mathlib

/-!
Verification of `scrape_host.py` (Rarity-tech/scraping-from-host).

Shallow embedding of the script's pure logic and of its main pipeline.
External collaborators (the `pyairbnb` API client, `datetime.fromisoformat`)
are modelled at their interface boundary as components of a `World` record,
exactly as the spec's §6 describes them.  File and CSV side effects are
modelled as explicit state (`St`).  Python values that flow through the
payloads are modelled by the inductive type `PyVal` with Python truthiness
and `str()` coercion.

Character classes (`\d`, `\s`, `str.strip`, `str.isdigit`) are modelled over
their ASCII meaning, which is the alphabet all verified properties use.
-/

namespace ScrapeHost

/-- Python whitespace for `str.strip`, `str.split` and the regex class `\s`
(ASCII fragment: space, tab, LF, CR, VT, FF). -/
def isPySpace (c : Char) : Bool :=
  c = ' ' || c = '\t' || c = '\n' || c = '\r' || c = Char.ofNat 11 || c = Char.ofNat 12

/-- ASCII decimal digit, modelling the regex class `\d` and `str.isdigit`. -/
def isDigitCh (c : Char) : Bool :=
  '0' ≤ c && c ≤ '9'

/-- `str.strip()` on a character list: drop whitespace from both ends. -/
def pyStripL (l : List Char) : List Char :=
  ((l.dropWhile isPySpace).reverse.dropWhile isPySpace).reverse

/-- `str.strip()` on strings. -/
def pyStripS (s : String) : String :=
  String.mk (pyStripL s.data)

/-- `str.isdigit()`: non-empty and all decimal digits. -/
def pyIsDigit (l : List Char) : Bool :=
  !l.isEmpty && l.all isDigitCh

/-- Words of a string under Python `str.split()` (split on whitespace runs,
dropping empty words); accumulator holds the current word reversed. -/
def pyWordsAux : List Char → List Char → List (List Char)
  | [], acc => if acc.isEmpty then [] else [acc.reverse]
  | c :: rest, acc =>
    if isPySpace c then
      if acc.isEmpty then pyWordsAux rest [] else acc.reverse :: pyWordsAux rest []
    else
      pyWordsAux rest (c :: acc)

/-- Python `str.split()` with no argument. -/
def pyWords (l : List Char) : List (List Char) :=
  pyWordsAux l []

-- ==========================
-- Python values (payload model)
-- ==========================

/-- Model of the Python values that appear in upstream payloads:
`None`, strings, integers, dicts (association lists, first binding wins,
as produced by the JSON decoder) and lists. -/
inductive PyVal where
  | none
  | str (s : String)
  | int (n : Int)
  | dict (entries : List (String × PyVal))
  | list (xs : List PyVal)

/-- Python truthiness: `None`, `""`, `0`, `{}`, `[]` are falsy. -/
def pyTruthy : PyVal → Bool
  | .none => false
  | .str s => s ≠ ""
  | .int n => n ≠ 0
  | .dict es => !es.isEmpty
  | .list xs => !xs.isEmpty

mutual

/-- Python `repr` (used by `str` on non-string containers).  String escaping
inside `repr` is simplified to plain single quotes; no verified property
depends on the repr of a container. -/
def pyRepr : PyVal → String
  | .none => "None"
  | .str s => "'" ++ s ++ "'"
  | .int n => toString n
  | .dict es => "\x7b" ++ pyReprEntries es ++ "\x7d"
  | .list xs => "[" ++ pyReprItems xs ++ "]"

/-- Comma-separated `repr` of dict entries. -/
def pyReprEntries : List (String × PyVal) → String
  | [] => ""
  | [(k, v)] => "'" ++ k ++ "': " ++ pyRepr v
  | (k, v) :: e :: rest => "'" ++ k ++ "': " ++ pyRepr v ++ ", " ++ pyReprEntries (e :: rest)

/-- Comma-separated `repr` of list items. -/
def pyReprItems : List PyVal → String
  | [] => ""
  | [v] => pyRepr v
  | v :: w :: rest => pyRepr v ++ ", " ++ pyReprItems (w :: rest)

end

/-- Python `str()` coercion. -/
def pyStr : PyVal → String
  | .str s => s
  | .none => "None"
  | .int n => toString n
  | v => pyRepr v

/-- `d.get(k, default)` on a dict's entry list. -/
def aget (es : List (String × PyVal)) (k : String) (d : PyVal) : PyVal :=
  match es.find? (fun e => e.1 = k) with
  | some e => e.2
  | Option.none => d

/-- `k in d` on a dict's entry list. -/
def ahas (es : List (String × PyVal)) (k : String) : Bool :=
  es.any (fun e => e.1 = k)

-- ==========================
-- extract_license_code (lines 98-119)
-- ==========================

/-- Scan for the first `>` and return what follows it (`goClose` is the tail
of matching `[^>]+>` after its first mandatory character). -/
def goClose : List Char → Option (List Char)
  | [] => Option.none
  | c :: rest => if c = '>' then some rest else goClose rest

/-- Match `[^>]+>` at the head of `l` (the part of a `<[^>]+>` tag after the
opening `<`): at least one non-`>` character, then `>`; returns the suffix
after the closing `>`. -/
def findClose : List Char → Option (List Char)
  | [] => Option.none
  | c :: rest => if c = '>' then Option.none else goClose rest

/-- `re.sub(r"<[^>]+>", " ", text)` with explicit fuel.  Every recursive call
strictly shrinks the list (`findClose_length_lt`), so with `fuel ≥ l.length`
the fuel-exhausted branch is unreachable; `stripTags` below always supplies
enough fuel. -/
def stripTagsFuel : Nat → List Char → List Char
  | 0, _ => []
  | _ + 1, [] => []
  | fuel + 1, c :: rest =>
    if c = '<' then
      match findClose rest with
      | some r => ' ' :: stripTagsFuel fuel r
      | Option.none => '<' :: stripTagsFuel fuel rest
    else
      c :: stripTagsFuel fuel rest

/-- `re.sub(r"<[^>]+>", " ", text)`: each leftmost non-overlapping tag match
is replaced by a single space. -/
def stripTags (l : List Char) : List Char :=
  stripTagsFuel l.length l

/-- Case-insensitive literal match of `pat` (given lowercase) at the head of
`l`; returns the remainder on success. -/
def ciLit : List Char → List Char → Option (List Char)
  | [], l => some l
  | _ :: _, [] => Option.none
  | p :: ps, c :: cs => if c.toLower = p then ciLit ps cs else Option.none

/-- Match the regex `\s+` at the head of `l`.  Its maximal extent is the only
viable one here because every continuation in the license pattern starts with
a letter, so no backtracking into `\s+` can succeed. -/
def wsPlus (l : List Char) : Option (List Char) :=
  let ws := l.takeWhile isPySpace
  if ws.isEmpty then Option.none else some (l.drop ws.length)

/-- Candidates (in regex backtracking order) for an optional literal
character `c?`: with the character consumed first, then without. -/
def optCh (c : Char) (l : List Char) : List (List Char) :=
  match l with
  | [] => [[]]
  | x :: rest => if x.toLower = c then [rest, x :: rest] else [x :: rest]

/-- Candidates for `(?:Number|No\.?|Code)` in regex alternation order. -/
def numNoCode (l : List Char) : List (List Char) :=
  (match ciLit "number".data l with
   | some r => [r]
   | Option.none => []) ++
  (match ciLit "no".data l with
   | some r => optCh '.' r
   | Option.none => []) ++
  (match ciLit "code".data l with
   | some r => [r]
   | Option.none => [])

/-- Candidates for `(?:Number|No\.?)` (the `Permit` tail) in order. -/
def numNo (l : List Char) : List (List Char) :=
  (match ciLit "number".data l with
   | some r => [r]
   | Option.none => []) ++
  (match ciLit "no".data l with
   | some r => optCh '.' r
   | Option.none => [])

/-- Candidates for `Registration\s+Details?`. -/
def alt1 (l : List Char) : List (List Char) :=
  match ciLit "registration".data l with
  | Option.none => []
  | some r =>
    match wsPlus r with
    | Option.none => []
    | some r2 =>
      match ciLit "detail".data r2 with
      | Option.none => []
      | some r3 => optCh 's' r3

/-- Candidates for `Registration\s+(?:Number|No\.?|Code)`. -/
def alt2 (l : List Char) : List (List Char) :=
  match ciLit "registration".data l with
  | Option.none => []
  | some r =>
    match wsPlus r with
    | Option.none => []
    | some r2 => numNoCode r2

/-- Candidates for `License\s+(?:Number|No\.?|Code)`. -/
def alt3 (l : List Char) : List (List Char) :=
  match ciLit "license".data l with
  | Option.none => []
  | some r =>
    match wsPlus r with
    | Option.none => []
    | some r2 => numNoCode r2

/-- Candidates for `Permit\s+(?:Number|No\.?)`. -/
def alt4 (l : List Char) : List (List Char) :=
  match ciLit "permit".data l with
  | Option.none => []
  | some r =>
    match wsPlus r with
    | Option.none => []
    | some r2 => numNo r2

/-- All keyword-match remainders at this position, in the alternation order
of the compiled pattern. -/
def kwCandidates (l : List Char) : List (List Char) :=
  alt1 l ++ alt2 l ++ alt3 l ++ alt4 l

/-- Characters matched by `[^,\n]`. -/
def nonDelim (c : Char) : Bool :=
  c ≠ ',' && c ≠ '\n'

/-- Try the suffix `[:\s]*([^,\n]+)` after a matched keyword, with `[:\s]*`
consuming `j` characters and backtracking downwards; returns the capture. -/
def suffixTry (r : List Char) : Nat → Option (List Char)
  | 0 =>
    match r.takeWhile nonDelim with
    | [] => Option.none
    | c :: cs => some (c :: cs)
  | j + 1 =>
    match (r.drop (j + 1)).takeWhile nonDelim with
    | [] => suffixTry r j
    | c :: cs => some (c :: cs)

/-- Match `[:\s]*([^,\n]+)` at the head of `r` with regex (greedy plus
backtracking) semantics; returns the captured group. -/
def suffixCapture (r : List Char) : Option (List Char) :=
  suffixTry r ((r.takeWhile (fun c => c = ':' || isPySpace c)).length)

/-- `re.search` of the license pattern: leftmost position first; at each
position, keyword alternatives in order, each followed by the capture
suffix. -/
def searchLicense : List Char → Option (List Char)
  | [] => Option.none
  | c :: rest =>
    match (kwCandidates (c :: rest)).findSome? suffixCapture with
    | some g => some g
    | Option.none => searchLicense rest

/-- `code.strip()` followed by `" ".join(code.split())`. -/
def wsNormalize (l : List Char) : String :=
  String.intercalate " " ((pyWords (pyStripL l)).map String.mk)

/-- `extract_license_code` (lines 98-119): falsy text yields `""`; otherwise
strip tags, search the keyword pattern case-insensitively, and
whitespace-normalize the captured group. -/
def extract_license_code (text : PyVal) : String :=
  if !pyTruthy text then ""
  else
    let text_clean := stripTags (pyStr text).data
    match searchLicense text_clean with
    | some g => wsNormalize g
    | Option.none => ""

-- ==========================
-- parse_host_id_from_url (lines 60-83)
-- ==========================

/-- `re.fullmatch(r"\d{5,25}", s)`. -/
def fullmatchD525 (s : String) : Bool :=
  s.data.all isDigitCh && decide (5 ≤ s.data.length) && decide (s.data.length ≤ 25)

/-- Split a list at the first occurrence of `c`: `(before, after)`. -/
def splitOnce (c : Char) : List Char → Option (List Char × List Char)
  | [] => Option.none
  | x :: rest =>
    if x = c then some ([], rest)
    else
      match splitOnce c rest with
      | some (pre, post) => some (x :: pre, post)
      | Option.none => Option.none

/-- Characters allowed in a URL scheme (`urllib.parse.scheme_chars`). -/
def isSchemeChar (c : Char) : Bool :=
  c.isAlpha || c.isDigit || c = '+' || c = '-' || c = '.'

/-- ASCII alphabetic head test used by `urlsplit`'s scheme detection. -/
def headIsAlpha : List Char → Bool
  | [] => false
  | c :: _ => c.isAlpha && c.toNat < 128

/-- Drop everything from the first `#` on (`url.split('#', 1)[0]`);
identity when there is no `#`. -/
def dropFrag (l : List Char) : List Char :=
  match splitOnce '#' l with
  | some p => p.1
  | Option.none => l

/-- Drop everything from the first `?` on (`url.split('?', 1)[0]`);
identity when there is no `?`. -/
def dropQuery (l : List Char) : List Char :=
  match splitOnce '?' l with
  | some p => p.1
  | Option.none => l

/-- `url[:2] == '//'`. -/
def startsDslash : List Char → Bool
  | '/' :: '/' :: _ => true
  | _ => false

/-- Strip a valid scheme prefix: CPython checks the segment before the
first `:` (non-empty, ASCII-alphabetic head, all scheme characters). -/
def stripScheme (l : List Char) : List Char :=
  match splitOnce ':' l with
  | some p =>
    if !p.1.isEmpty && headIsAlpha p.1 && p.1.all isSchemeChar then p.2 else l
  | Option.none => l

/-- Model of `urllib.parse.urlparse(s).path`:
remove tab/CR/LF anywhere (CPython's unsafe-byte removal), split a valid
scheme at the first `:`, split a `//`-introduced netloc at the next
`/`/`?`/`#`, then drop the fragment (first `#`) and the query (first `?`).
`none` models a raised `ValueError`.  CPython validates bracketed netlocs
(mismatched brackets always raise; bracketed hosts must be IP literals);
we conservatively model any `[` or `]` in the netloc as a parse error —
no verified property involves bracketed hosts. -/
def urlparsePath (l0 : List Char) : Option (List Char) :=
  let l1 := l0.filter (fun c => c ≠ '\t' && c ≠ '\r' && c ≠ '\n')
  let l2 := stripScheme l1
  if startsDslash l2 then
    let rest := l2.drop 2
    let netloc := rest.takeWhile (fun c => c ≠ '/' && c ≠ '?' && c ≠ '#')
    if netloc.contains '[' || netloc.contains ']' then Option.none
    else some (dropQuery (dropFrag (rest.drop netloc.length)))
  else some (dropQuery (dropFrag l2))

/-- The capture `(\d+)`: a maximal non-empty digit run. -/
def digitsCapture (r : List Char) : Option (List Char) :=
  match r.takeWhile isDigitCh with
  | [] => Option.none
  | c :: cs => some (c :: cs)

/-- The tail `(?:show|profile)/(\d+)` of the host-URL pattern (the two
alternatives are mutually exclusive, so alternation order is immaterial). -/
def tryShowProfile : List Char → Option (List Char)
  | 's' :: 'h' :: 'o' :: 'w' :: '/' :: rest => digitsCapture rest
  | 'p' :: 'r' :: 'o' :: 'f' :: 'i' :: 'l' :: 'e' :: '/' :: rest => digitsCapture rest
  | _ => Option.none

/-- Try `/users/(?:show|profile)/(\d+)` at this exact position. -/
def tryUsersAt : List Char → Option (List Char)
  | '/' :: 'u' :: 's' :: 'e' :: 'r' :: 's' :: '/' :: rest => tryShowProfile rest
  | _ => Option.none

/-- `re.search(r"/users/(?:show|profile)/(\d+)", path)`: leftmost match,
returning the captured digit run. -/
def pathSearchUsers : List Char → Option (List Char)
  | [] => Option.none
  | c :: rest =>
    match tryUsersAt (c :: rest) with
    | some d => some d
    | Option.none => pathSearchUsers rest

/-- `parse_host_id_from_url` (lines 60-83). -/
def parse_host_id_from_url (host_url : String) : String :=
  if host_url = "" then ""
  else
    let s := pyStripS host_url
    if fullmatchD525 s then s
    else
      match urlparsePath s.data with
      | Option.none => ""
      | some path =>
        match pathSearchUsers path with
        | some d => String.mk d
        | Option.none => ""

-- ==========================
-- Progress store (lines 86-95)
-- ==========================

/-- `load_processed_ids` (lines 86-90): the set of stripped non-empty lines
of `processed_ids.txt`, modelled as a list whose membership is the set. -/
def processedSet (file : List String) : List String :=
  (file.map pyStripS).filter (fun x => x ≠ "")

-- ==========================
-- get_room_ids_from_host (lines 262-284)
-- ==========================

/-- Identifier extraction for one enumerated item (body of the `for` loop,
lines 273-281).  `Except.error` models an uncaught `AttributeError`: when
`room_id` and `id` are both falsy and the item's `listing` field is present
but not a dict, `.get("id")` is called on a non-dict. -/
def itemRoomId (it : PyVal) : Except Unit (Option String) :=
  match it with
  | .dict es =>
    let r1 := aget es "room_id" .none
    if pyTruthy r1 then .ok (some (pyStr r1))
    else
      let r2 := aget es "id" .none
      if pyTruthy r2 then .ok (some (pyStr r2))
      else
        match aget es "listing" (.dict []) with
        | .dict ls =>
          let r3 := aget ls "id" .none
          if pyTruthy r3 then .ok (some (pyStr r3)) else .ok Option.none
        | _ => .error ()
  | v =>
    let s := pyStripS (pyStr v)
    if pyIsDigit s.data then .ok (some s) else .ok Option.none

/-- The extraction loop over all enumerated items. -/
def extractRoomIds : List PyVal → Except Unit (List String)
  | [] => .ok []
  | it :: rest =>
    match itemRoomId it with
    | .error e => .error e
    | .ok Option.none => extractRoomIds rest
    | .ok (some rid) =>
      match extractRoomIds rest with
      | .error e => .error e
      | .ok rids => .ok (rid :: rids)

/-- `list(dict.fromkeys(room_ids))`: deduplicate preserving first-seen
order (`seen` accumulates identifiers already emitted). -/
def dedupAux : List String → List String → List String
  | [], _ => []
  | x :: xs, seen =>
    if seen.contains x then dedupAux xs seen else x :: dedupAux xs (x :: seen)

/-- First-seen-order deduplication. -/
def dedupFirst (l : List String) : List String :=
  dedupAux l []

/-- Enumeration step of `get_room_ids_from_host` after the upstream call:
extract identifiers, then deduplicate. -/
def roomIdsOfListings (items : List PyVal) : Except Unit (List String) :=
  match extractRoomIds items with
  | .error e => .error e
  | .ok rids => .ok (dedupFirst rids)

-- ==========================
-- retry_on_failure (lines 30-44)
-- ==========================

/-- The retry loop of `retry_on_failure`, on an attempt-indexed fallible
operation `f`.  Returns (outcome, number of invocations, backoff sleeps).
The outcome is `none` when the `for` loop exhausts without returning or
raising, which Python allows only for `max_retries = 0` (the wrapper then
returns `None`). -/
def retryGo {ε α : Type} (f : Nat → Except ε α) (delay total : Nat) :
    Nat → Nat → Option (Except ε α) × Nat × List Nat
  | _, 0 => (Option.none, 0, [])
  | attempt, rem + 1 =>
    match f attempt with
    | .ok a => (some (.ok a), 1, [])
    | .error e =>
      if attempt = total - 1 then (some (.error e), 1, [])
      else
        let rest := retryGo f delay total (attempt + 1) rem
        (rest.1, rest.2.1 + 1, delay * 2 ^ attempt :: rest.2.2)

/-- `retry_on_failure(max_retries, delay)` applied to an attempt-indexed
operation (lines 30-44): up to `max_retries` invocations, re-raising the
final failure, sleeping `delay * 2 ^ attempt` between attempts. -/
def retry_on_failure {ε α : Type} (max_retries delay : Nat) (f : Nat → Except ε α) :
    Option (Except ε α) × Nat × List Nat :=
  retryGo f delay max_retries 0 max_retries

-- ==========================
-- External world and run state
-- ==========================

/-- The external collaborators of §6, at their interface boundary:
`apiKey` models `pyairbnb.get_api_key`; `userListings` models
`pyairbnb.get_listings_from_user(user_id, api_key, proxy)` (taken here in
the order api key, then user id); `detailAttempt` models successive invocations of
`pyairbnb.get_details` for a room id (indexed by attempt, as driven by the
retry wrapper); `hostDetails` models `pyairbnb.get_host_details`;
`isoYear` models `datetime.fromisoformat(s).year` with `none` for a raised
parse error; `nowYear` models `datetime.now().year`. -/
structure World where
  apiKey : Except Unit String
  userListings : String → String → Except Unit (Option (List PyVal))
  detailAttempt : String → Nat → Except Unit PyVal
  hostDetails : String → String → Except Unit PyVal
  isoYear : String → Option Int
  nowYear : Int

/-- A cached host profile (the dict built at lines 202-209). -/
structure HostProfile where
  host_name : PyVal
  host_rating : PyVal
  host_reviews_count : PyVal
  host_joined_year : PyVal
  host_years_active : PyVal
  host_total_listings : Nat

/-- The all-empty profile returned for an empty host id (lines 136-144). -/
def emptyProfile : HostProfile :=
  ⟨.str "", .str "", .str "", .str "", .str "", 0⟩

/-- One output row (the dict built at lines 225-238). -/
structure Record where
  room_id : String
  listing_url : String
  listing_title : PyVal
  license_code : String
  host_id : String
  host_name : PyVal
  host_profile_url : String
  host_rating : PyVal
  host_reviews_count : PyVal
  host_joined_year : PyVal
  host_years_active : PyVal
  host_total_listings_in_dubai : Nat

/-- A suspension of the single thread of control: a retry backoff sleep of
`secs` seconds, or the fixed inter-request delay (`DELAY_BETWEEN_DETAILS`). -/
inductive SleepEv where
  | backoff (secs : Nat)
  | interRequest

/-- Observable run state: the progress-log file (persistent across runs),
the process-wide credential cache, the per-run host-profile cache, and the
event logs of CSV writes, sleeps, host-profile network lookups and
enumeration calls. -/
structure St where
  file : List String
  apiKeyCache : Option String
  hostCache : List (String × HostProfile)
  csvWrites : List (List Record)
  sleeps : List SleepEv
  lookups : List String
  enumCalls : List String

/-- Fresh per-process state over a given progress-log file. -/
def initSt (file : List String) : St :=
  ⟨file, Option.none, [], [], [], [], []⟩

/-- `save_processed_id` (lines 93-95): append one line. -/
def saveProcessed (rid : String) (st : St) : St :=
  { st with file := st.file ++ [rid] }

/-- `write_csv` (lines 241-259): record one full rewrite of the output
table with the given rows. -/
def csvPush (st : St) (records : List Record) : St :=
  { st with csvWrites := st.csvWrites ++ [records] }

/-- Append one sleep event. -/
def addSleep (ev : SleepEv) (st : St) : St :=
  { st with sleeps := st.sleeps ++ [ev] }

/-- `get_api_credentials` (lines 47-57): acquire the API key once, caching
`""` on failure so acquisition is never retried. -/
def get_api_credentials (w : World) (st : St) : String × St :=
  match st.apiKeyCache with
  | some k => (k, st)
  | Option.none =>
    match w.apiKey with
    | .ok k => (k, { st with apiKeyCache := some k })
    | .error _ => ("", { st with apiKeyCache := some "" })

/-- The key `get_api_credentials` yields from a fresh cache. -/
def acquiredKey (w : World) : String :=
  match w.apiKey with
  | .ok k => k
  | .error _ => ""

-- ==========================
-- fetch_host_profile_fields (lines 132-210)
-- ==========================

/-- The five parsed profile fields (name, rating, reviews, joined year,
years active), in assignment order. -/
structure ParsedHost where
  host_name : PyVal
  host_rating : PyVal
  host_reviews_count : PyVal
  host_joined_year : PyVal
  host_years_active : PyVal

/-- All-empty parsed fields (lines 151-155). -/
def parsedHost0 : ParsedHost :=
  ⟨.str "", .str "", .str "", .str "", .str ""⟩

/-- The `createdAt` handling (lines 183-190): only a string can survive
`.replace`; a parse failure is swallowed, leaving both fields `""`. -/
def joinedYears (w : World) (createdAt : PyVal) : PyVal × PyVal :=
  match createdAt with
  | .str s =>
    match w.isoYear (s.replace "Z" "+00:00") with
    | some y => (.int y, .int (w.nowYear - y))
    | Option.none => (.str "", .str "")
  | _ => (.str "", .str "")

/-- Parse of a host-details response (lines 167-190).  The boolean is
`false` when the parse raised (a `.get` on a non-dict), in which case the
fields assigned before the raise are kept and the total-listings block is
skipped (the raise jumps to the outer `except` at line 199). -/
def parseHostResp (w : World) (resp : PyVal) : ParsedHost × Bool :=
  match resp with
  | .dict es =>
    if !pyTruthy resp || ahas es "errors" then (parsedHost0, true)
    else
      match aget es "data" (.dict []) with
      | .dict ds =>
        match aget ds "node" (.dict []) with
        | .dict ns =>
          match aget ns "hostRatingStats" (.dict []) with
          | .dict rs =>
            let rating := aget rs "ratingAverage" (.str "")
            match aget ds "presentation" (.dict []) with
            | .dict ps =>
              match aget ps "userProfileContainer" (.dict []) with
              | .dict us =>
                let userProfile := aget us "userProfile" .none
                if !pyTruthy userProfile then
                  ({ parsedHost0 with host_rating := rating }, true)
                else
                  match userProfile with
                  | .dict ups =>
                    let nm0 := aget ups "smartName" (.str "")
                    let nm := if pyTruthy nm0 then nm0 else aget ups "displayFirstName" (.str "")
                    match aget ups "reviewsReceivedFromGuests" (.dict []) with
                    | .dict rv =>
                      let cnt := aget rv "count" (.str "")
                      let createdAt := aget ups "createdAt" (.str "")
                      if !pyTruthy createdAt then
                        (⟨nm, rating, cnt, .str "", .str ""⟩, true)
                      else
                        let jy := joinedYears w createdAt
                        (⟨nm, rating, cnt, jy.1, jy.2⟩, true)
                    | _ => (⟨nm, rating, .str "", .str "", .str ""⟩, false)
                  | _ => ({ parsedHost0 with host_rating := rating }, false)
              | _ => ({ parsedHost0 with host_rating := rating }, false)
            | _ => ({ parsedHost0 with host_rating := rating }, false)
          | _ => (parsedHost0, false)
        | _ => (parsedHost0, false)
      | _ => (parsedHost0, false)
  | _ => (parsedHost0, true)

/-- `fetch_host_profile_fields` (lines 132-210): empty host id
short-circuits to the all-empty profile with no network call; otherwise the
per-run cache is consulted, and on a miss the host-details and user-listings
APIs are queried (the lookup is recorded in `st.lookups`), every failure
degrading to default fields. -/
def fetch_host_profile_fields (w : World) (host_id : String) (st : St) : HostProfile × St :=
  if host_id = "" then (emptyProfile, st)
  else
    match st.hostCache.find? (fun e => e.1 = host_id) with
    | some e => (e.2, st)
    | Option.none =>
      let ak := get_api_credentials w st
      let api_key := ak.1
      let st2 := { ak.2 with lookups := ak.2.lookups ++ [host_id] }
      let fo :=
        match w.hostDetails api_key host_id with
        | .error _ => (parsedHost0, false)
        | .ok resp => parseHostResp w resp
      let fields := fo.1
      let total :=
        if fo.2 then
          match w.userListings api_key host_id with
          | .error _ => 0
          | .ok Option.none => 0
          | .ok (some l) => if l.isEmpty then 0 else l.length
        else 0
      let profile : HostProfile :=
        ⟨fields.host_name, fields.host_rating, fields.host_reviews_count,
         fields.host_joined_year, fields.host_years_active, total⟩
      (profile, { st2 with hostCache := st2.hostCache ++ [(host_id, profile)] })

-- ==========================
-- extract_listing_data (lines 213-238)
-- ==========================

/-- `extract_listing_data` (lines 213-238).  `Except.error` models the
`AttributeError` raised by `details.get` when the (truthy) payload is not a
dict; it is caught by the per-listing handler in `main`. -/
def extract_listing_data (w : World) (room_id : String) (details : PyVal) (st : St) :
    Except Unit Record × St :=
  match details with
  | .dict es =>
    let listing_title := aget es "title" (.str "")
    let description := aget es "description" (.str "")
    let license_code := extract_license_code description
    let host_data := aget es "host" (.dict [])
    let host_id :=
      match host_data with
      | .dict hs => pyStr (aget hs "id" (.str ""))
      | _ => ""
    let fp := fetch_host_profile_fields w host_id st
    let hf := fp.1
    (.ok
      { room_id := room_id
        listing_url := "https://www.airbnb.com/rooms/" ++ room_id
        listing_title := listing_title
        license_code := license_code
        host_id := host_id
        host_name := hf.host_name
        host_profile_url :=
          if host_id ≠ "" then "https://www.airbnb.com/users/show/" ++ host_id else ""
        host_rating := hf.host_rating
        host_reviews_count := hf.host_reviews_count
        host_joined_year := hf.host_joined_year
        host_years_active := hf.host_years_active
        host_total_listings_in_dubai := hf.host_total_listings }, fp.2)
  | _ => (.error (), st)

-- ==========================
-- main (lines 287-335)
-- ==========================

/-- `get_listing_details` (lines 122-129): the detail fetch wrapped in
`retry_on_failure(max_retries=3, delay=2)`. -/
def get_listing_details (w : World) (room_id : String) :
    Option (Except Unit PyVal) × Nat × List Nat :=
  retry_on_failure 3 2 (w.detailAttempt room_id)

/-- One iteration of the processing loop (lines 317-332): fetch with retry
(logging backoff sleeps); a raised fetch error is caught and falls through
to the inter-request sleep; a falsy payload `continue`s with no sleep; a
truthy payload is extracted (an extraction raise is also caught and falls
through to the sleep), the record appended, the id durably saved, then the
inter-request sleep is taken. -/
def processOne (w : World) (room_id : String) (st : St) : Option Record × St :=
  let g := get_listing_details w room_id
  let st1 := { st with sleeps := st.sleeps ++ g.2.2.map SleepEv.backoff }
  match g.1 with
  | Option.none => (Option.none, st1)
  | some (.error _) => (Option.none, addSleep .interRequest st1)
  | some (.ok details) =>
    if !pyTruthy details then (Option.none, st1)
    else
      let ex := extract_listing_data w room_id details st1
      match ex.1 with
      | .error _ => (Option.none, addSleep .interRequest ex.2)
      | .ok rec => (some rec, addSleep .interRequest (saveProcessed room_id ex.2))

/-- The processing loop over the remaining identifiers, in enumeration
order, accumulating output records. -/
def runLoop (w : World) : List String → St → List Record × St
  | [], st => ([], st)
  | rid :: rest, st =>
    let p := processOne w rid st
    let q := runLoop w rest p.2
    (p.1.toList ++ q.1, q.2)

/-- Pure part of `get_room_ids_from_host` (lines 262-284): enumerate the
host's listings (an upstream raise propagates — there is no handler) and
extract/deduplicate identifiers. -/
def get_room_ids_pure (w : World) (api_key host_id : String) : Except Unit (List String) :=
  match w.userListings api_key host_id with
  | .error e => .error e
  | .ok ol => roomIdsOfListings (ol.getD [])

/-- `get_room_ids_from_host` (lines 262-284) with its state effects:
credential acquisition and the enumeration network call. -/
def get_room_ids_from_host (w : World) (host_id : String) (st : St) :
    Except Unit (List String) × St :=
  let ak := get_api_credentials w st
  let st2 := { ak.2 with enumCalls := ak.2.enumCalls ++ [host_id] }
  (get_room_ids_pure w ak.1 host_id, st2)

/-- Terminal outcome of a run of `main`. -/
inductive RunResult where
  | missingHostUrl
  | unresolvedHost
  | crashed
  | completed (records : List Record)

/-- `main` after successful host resolution (lines 304-335): write the
placeholder empty table, load the progress set, enumerate, filter, process
each remaining identifier, write the final table. -/
def mainAfterResolve (w : World) (host_id : String) (file0 : List String) : RunResult × St :=
  let st1 := csvPush (initSt file0) []
  let processed := processedSet st1.file
  let g := get_room_ids_from_host w host_id st1
  match g.1 with
  | .error _ => (.crashed, g.2)
  | .ok room_ids =>
    let remaining := room_ids.filter (fun rid => !processed.contains rid)
    let p := runLoop w remaining g.2
    (.completed p.1, csvPush p.2 p.1)

/-- `main` (lines 287-335) for one process run: `env` is `HOST_URL`,
`file0` the progress-log contents at start.  `crashed` models an uncaught
exception escaping from the enumeration step. -/
def mainRun (w : World) (env : String) (file0 : List String) : RunResult × St :=
  let host_url := pyStripS env
  if host_url = "" then (.missingHostUrl, initSt file0)
  else
    let host_id := parse_host_id_from_url host_url
    if host_id = "" then (.unresolvedHost, initSt file0)
    else mainAfterResolve w host_id file0

/-- The claim's per-item identifier, following the spec's words: first a
truthy `room_id`, then a truthy `id`, then a truthy nested `listing.id`,
each coerced to string; `none` when the item yields no identifier (to be
skipped).  Non-dict items keep the source's digit-string fallback. -/
def specItemId (it : PyVal) : Option String :=
  match it with
  | .dict es =>
    if pyTruthy (aget es "room_id" .none) then some (pyStr (aget es "room_id" .none))
    else if pyTruthy (aget es "id" .none) then some (pyStr (aget es "id" .none))
    else
      match aget es "listing" (.dict []) with
      | .dict ls =>
        if pyTruthy (aget ls "id" .none) then some (pyStr (aget ls "id" .none))
        else Option.none
      | _ => Option.none
  | v =>
    let s := pyStripS (pyStr v)
    if pyIsDigit s.data then some s else Option.none

/-- Shape condition under which the source's extraction cannot raise: when
both `room_id` and `id` are falsy, the `listing` field (defaulted to `{}`
if absent) must itself be a dict. -/
def listingShapeOk (it : PyVal) : Bool :=
  match it with
  | .dict es =>
    pyTruthy (aget es "room_id" .none) || pyTruthy (aget es "id" .none) ||
      (match aget es "listing" (.dict []) with
       | .dict _ => true
       | _ => false)
  | _ => true

/-- Detail-fetch outcome classifying a skip per the claim: retry-exhausted
raise, empty (falsy) payload, or absent result. -/
def skipsDetail (w : World) (rid : String) : Bool :=
  match (get_listing_details w rid).1 with
  | Option.none => true
  | some (.error _) => true
  | some (.ok d) => !pyTruthy d

/-- The skips that bypass the inter-request sleep: exactly the empty/absent
payload `continue` (a raised fetch error falls through to the sleep). -/
def emptySkip (w : World) (rid : String) : Bool :=
  match (get_listing_details w rid).1 with
  | Option.none => true
  | some (.error _) => false
  | some (.ok d) => !pyTruthy d

/-- A world in which every upstream call fails or is empty. -/
def wEmpty : World :=
  { apiKey := .error ()
    userListings := fun _ _ => .ok Option.none
    detailAttempt := fun _ _ => .error ()
    hostDetails := fun _ _ => .error ()
    isoYear := fun _ => Option.none
    nowYear := 2024 }

/-- A world whose enumeration yields the single listing `"9"` and whose
every detail-fetch attempt raises. -/
def wFail : World :=
  { apiKey := .error ()
    userListings := fun _ _ => .ok (some [.dict [("room_id", .str "9")]])
    detailAttempt := fun _ _ => .error ()
    hostDetails := fun _ _ => .error ()
    isoYear := fun _ => Option.none
    nowYear := 2024 }

/-- The run state reached just after the enumeration call of a resolved
run: the placeholder empty table written, the credential acquired, the
enumeration call recorded. -/
def postEnumSt (w : World) (host_id : String) (file0 : List String) : St :=
  { file := file0
    apiKeyCache := some (acquiredKey w)
    hostCache := []
    csvWrites := [[]]
    sleeps := []
    lookups := []
    enumCalls := [host_id] }

/-- A world whose enumeration yields the single listing `"7"` and whose
detail fetch succeeds at once with a minimal payload (no host data). -/
def wOne : World :=
  { apiKey := .error ()
    userListings := fun _ _ => .ok (some [.dict [("room_id", .str "7")]])
    detailAttempt := fun _ _ => .ok (.dict [("title", .str "T")])
    hostDetails := fun _ _ => .error ()
    isoYear := fun _ => Option.none
    nowYear := 2024 }

/-- The record the run of `wOne` emits for listing `"7"`. -/
def recC1 : Record :=
  { room_id := "7"
    listing_url := "https://www.airbnb.com/rooms/7"
    listing_title := .str "T"
    license_code := ""
    host_id := ""
    host_name := .str ""
    host_profile_url := ""
    host_rating := .str ""
    host_reviews_count := .str ""
    host_joined_year := .str ""
    host_years_active := .str ""
    host_total_listings_in_dubai := 0 }

-- ==========================
-- C3: retry policy
-- ==========================

/-- C3.  Retry policy: for every fallible operation wrapped with
`max_retries=3` and `delay=2`, an operation that fails on its first two
invocations and succeeds on the third is invoked exactly 3 times and the
wrapper returns the third invocation's success value; an operation that
fails on every invocation is invoked exactly 3 times and the wrapper
re-raises the third failure unmodified; the backoff before the
`(attempt+1)`-th retry is `delay * 2 ^ attempt`, i.e. 2 then 4 time units,
with no jitter. -/
theorem retry_policy_C3 {ε α : Type} (f : Nat → Except ε α) :
    ((∃ e0, f 0 = .error e0) → (∃ e1, f 1 = .error e1) → ∀ v, f 2 = .ok v →
      retry_on_failure 3 2 f = (some (.ok v), 3, [2, 4]))
    ∧ (∀ e0 e1 e2, f 0 = .error e0 → f 1 = .error e1 → f 2 = .error e2 →
      retry_on_failure 3 2 f = (some (.error e2), 3, [2, 4])) := by
  constructor
  · rintro ⟨e0, h0⟩ ⟨e1, h1⟩ v h2
    simp [retry_on_failure, retryGo, h0, h1, h2]
  · intro e0 e1 e2 h0 h1 h2
    simp [retry_on_failure, retryGo, h0, h1, h2]

/-- Witness for C3 at the concrete operations
`fail-fail-succeed` and `always-fail`. -/
theorem retry_policy_C3_witness :
    retry_on_failure 3 2
        (fun i => if i < 2 then Except.error i else Except.ok "v") =
      (some (.ok "v"), 3, [2, 4])
    ∧ retry_on_failure 3 2 (fun i => (Except.error i : Except Nat String)) =
      (some (.error 2), 3, [2, 4]) :=
  ⟨(retry_policy_C3 (fun i => if i < 2 then Except.error i else Except.ok "v")).1
      ⟨0, rfl⟩ ⟨1, rfl⟩ "v" rfl,
   (retry_policy_C3 (fun i => (Except.error i : Except Nat String))).2
      0 1 2 rfl rfl rfl⟩

-- ==========================
-- C4 / C8: identity resolution
-- ==========================

theorem digit_ne (c : Char) (h : isDigitCh c = true) :
    c ≠ '\t' ∧ c ≠ '\r' ∧ c ≠ '\n' ∧ c ≠ ':' ∧ c ≠ '/' ∧ c ≠ '#' ∧ c ≠ '?' := by
  refine ⟨?_, ?_, ?_, ?_, ?_, ?_, ?_⟩ <;> (intro he; subst he; revert h; decide)

theorem splitOnce_eq_none (x : Char) (l : List Char) (h : ∀ c ∈ l, c ≠ x) :
    splitOnce x l = Option.none := by
  induction l with
  | nil => rfl
  | cons c rest ih =>
    have hc : c ≠ x := h c (by simp)
    have := ih (fun c hc => h c (by simp [hc]))
    simp [splitOnce, hc, this]

theorem urlparsePath_digits (l : List Char) (h : l.all isDigitCh = true) :
    urlparsePath l = some l := by
  have hmem : ∀ c ∈ l, isDigitCh c = true := by
    intro c hc
    exact List.all_eq_true.mp h c hc
  have hfil : l.filter (fun c => c ≠ '\t' && c ≠ '\r' && c ≠ '\n') = l := by
    apply List.filter_eq_self.mpr
    intro c hc
    obtain ⟨h1, h2, h3, _⟩ := digit_ne c (hmem c hc)
    simp [h1, h2, h3]
  have hscheme : stripScheme l = l := by
    unfold stripScheme
    rw [splitOnce_eq_none ':' l (fun c hc => (digit_ne c (hmem c hc)).2.2.2.1)]
  have hds : startsDslash l = false := by
    cases l with
    | nil => rfl
    | cons c rest =>
      have hc : c ≠ '/' := (digit_ne c (hmem c (by simp))).2.2.2.2.1
      unfold startsDslash
      split
      · rename_i heq
        injection heq with h1 _
        exact absurd h1 hc
      · rfl
  have hfrag : dropFrag l = l := by
    unfold dropFrag
    rw [splitOnce_eq_none '#' l (fun c hc => (digit_ne c (hmem c hc)).2.2.2.2.2.1)]
  have hquery : dropQuery l = l := by
    unfold dropQuery
    rw [splitOnce_eq_none '?' l (fun c hc => (digit_ne c (hmem c hc)).2.2.2.2.2.2)]
  unfold urlparsePath
  simp only [hfil, hscheme, hds, if_false, Bool.false_eq_true, hfrag, hquery]

theorem pathSearchUsers_digits (l : List Char) (h : l.all isDigitCh = true) :
    pathSearchUsers l = Option.none := by
  induction l with
  | nil => rfl
  | cons c rest ih =>
    simp only [List.all_cons, Bool.and_eq_true] at h
    have hc : c ≠ '/' := (digit_ne c h.1).2.2.2.2.1
    have ht : tryUsersAt (c :: rest) = Option.none := by
      unfold tryUsersAt
      split
      · rename_i heq
        injection heq with h1 _
        exact absurd h1 hc
      · rfl
    simp [pathSearchUsers, ht, ih h.2]

theorem pyStripS_empty : pyStripS "" = "" := rfl

theorem digitsCapture_spec (r d : List Char) (h : digitsCapture r = some d) :
    d ≠ [] ∧ d.all isDigitCh = true := by
  unfold digitsCapture at h
  have hall : (r.takeWhile isDigitCh).all isDigitCh = true := by
    apply List.all_eq_true.mpr
    intro c hc
    exact List.mem_takeWhile_imp hc
  split at h
  · exact absurd h (by simp)
  · rename_i c cs heq
    injection h with h
    subst h
    rw [heq] at hall
    exact ⟨by simp, hall⟩

theorem tryShowProfile_spec (l d : List Char) (h : tryShowProfile l = some d) :
    d ≠ [] ∧ d.all isDigitCh = true := by
  unfold tryShowProfile at h
  split at h
  · exact digitsCapture_spec _ _ h
  · exact digitsCapture_spec _ _ h
  · exact absurd h (by simp)

theorem tryUsersAt_spec (l d : List Char) (h : tryUsersAt l = some d) :
    d ≠ [] ∧ d.all isDigitCh = true := by
  unfold tryUsersAt at h
  split at h
  · exact tryShowProfile_spec _ _ h
  · exact absurd h (by simp)

theorem pathSearchUsers_spec (l d : List Char) (h : pathSearchUsers l = some d) :
    d ≠ [] ∧ d.all isDigitCh = true := by
  induction l with
  | nil => exact absurd h (by simp [pathSearchUsers])
  | cons c rest ih =>
    unfold pathSearchUsers at h
    split at h
    · rename_i heq
      injection h with h
      subst h
      exact tryUsersAt_spec _ _ heq
    · exact ih h

/-- C4.  Identity resolution: an input whose trimmed value fully matches
`\d{5,25}` resolves to that trimmed value unchanged; an input whose parsed
URL path contains `/users/show/<digits>` or `/users/profile/<digits>`
resolves to the (first) captured digit run; an input with neither shape —
including unparsable URLs, for which `urlparsePath` is `none` — resolves to
the empty string (resolution is a total function: no exception escapes). -/
theorem identity_resolution_C4 :
    (∀ u : String, fullmatchD525 (pyStripS u) = true →
      parse_host_id_from_url u = pyStripS u)
    ∧ (∀ (u : String) (p d : List Char), urlparsePath (pyStripS u).data = some p →
      pathSearchUsers p = some d → parse_host_id_from_url u = String.mk d)
    ∧ (∀ u : String, fullmatchD525 (pyStripS u) = false →
      (∀ p, urlparsePath (pyStripS u).data = some p → pathSearchUsers p = Option.none) →
      parse_host_id_from_url u = "") := by
  refine ⟨?_, ?_, ?_⟩
  · intro u hfull
    have hu : u ≠ "" := by
      intro he
      subst he
      rw [pyStripS_empty] at hfull
      exact absurd hfull (by decide)
    simp [parse_host_id_from_url, hu, hfull]
  · intro u p d hp hs
    have hu : u ≠ "" := by
      intro he
      subst he
      rw [pyStripS_empty] at hp
      have : p = ([] : List Char) := by
        have h0 : urlparsePath ("" : String).data = some [] := rfl
        rw [h0] at hp
        injection hp with hp
        exact hp.symm
      subst this
      exact absurd hs (by simp [pathSearchUsers])
    have hfull : fullmatchD525 (pyStripS u) = false := by
      by_contra hne
      have htrue : fullmatchD525 (pyStripS u) = true := by
        cases h : fullmatchD525 (pyStripS u)
        · exact absurd h hne
        · rfl
      have hall : (pyStripS u).data.all isDigitCh = true := by
        unfold fullmatchD525 at htrue
        simp only [Bool.and_eq_true] at htrue
        exact htrue.1.1
      rw [urlparsePath_digits _ hall] at hp
      injection hp with hp
      subst hp
      rw [pathSearchUsers_digits _ hall] at hs
      exact absurd hs (by simp)
    simp [parse_host_id_from_url, hu, hfull, hp, hs]
  · intro u hfull hnone
    by_cases hu : u = ""
    · simp [parse_host_id_from_url, hu]
    · simp only [parse_host_id_from_url, hu, if_false, hfull]
      cases hp : urlparsePath (pyStripS u).data with
      | none => simp
      | some p => simp [hnone p hp]

/-- Witness for C4 at `" 12345678 "` (direct-ID shape),
`"https://www.airbnb.com/users/show/123"` (URL shape) and
`"not a url"` (neither shape). -/
theorem identity_resolution_C4_witness :
    parse_host_id_from_url " 12345678 " = "12345678"
    ∧ parse_host_id_from_url "https://www.airbnb.com/users/show/123" = "123"
    ∧ parse_host_id_from_url "not a url" = "" := by
  refine ⟨?_, ?_, ?_⟩
  · exact identity_resolution_C4.1 " 12345678 " (by rfl)
  · exact identity_resolution_C4.2.1 "https://www.airbnb.com/users/show/123"
        ("/users/show/123".data) ("123".data) (by rfl) (by rfl)
  · apply identity_resolution_C4.2.2 "not a url" (by rfl)
    intro p hp
    have h0 : urlparsePath (pyStripS "not a url").data = some ("not a url".data) := by rfl
    rw [h0] at hp
    injection hp with hp
    subst hp
    rfl

/-- C8 counterexample: the URL `https://www.airbnb.com/users/show/123`
resolves to `"123"`, which is neither empty nor of length 5–25, refuting
the claimed resolver output invariant. -/
theorem resolver_invariant_C8_cex :
    parse_host_id_from_url "https://www.airbnb.com/users/show/123" = "123"
    ∧ ¬("123" = "" ∨ (5 ≤ ("123" : String).length ∧ ("123" : String).length ≤ 25)) := by
  exact ⟨by rfl, by decide⟩

theorem parse_eq_url_branch (u : String) (hu : u ≠ "") (hfull : fullmatchD525 (pyStripS u) = false) :
    parse_host_id_from_url u =
      (match urlparsePath (pyStripS u).data with
       | Option.none => ""
       | some path =>
         match pathSearchUsers path with
         | some d => String.mk d
         | Option.none => "") := by
  simp [parse_host_id_from_url, hu, hfull]

/-- C8 amended: host-reference resolution returns either the empty string
(failure) or a non-empty decimal-digit string; the 5–25 length bound holds
only for the direct-ID branch, while the URL branch may return a digit
string of any positive length. -/
theorem resolver_invariant_C8_amended (u : String) :
    parse_host_id_from_url u = ""
    ∨ ((parse_host_id_from_url u).data ≠ []
        ∧ (parse_host_id_from_url u).data.all isDigitCh = true) := by
  by_cases hu : u = ""
  · left
    simp [parse_host_id_from_url, hu]
  · by_cases hfull : fullmatchD525 (pyStripS u) = true
    · right
      have hp : parse_host_id_from_url u = pyStripS u := by
        simp [parse_host_id_from_url, hu, hfull]
      rw [hp]
      unfold fullmatchD525 at hfull
      simp only [Bool.and_eq_true, decide_eq_true_eq] at hfull
      refine ⟨?_, hfull.1.1⟩
      intro he
      rw [he] at hfull
      simp at hfull
    · have hfull2 : fullmatchD525 (pyStripS u) = false := by
        cases h : fullmatchD525 (pyStripS u)
        · rfl
        · exact absurd h hfull
      rw [parse_eq_url_branch u hu hfull2]
      cases hp : urlparsePath (pyStripS u).data with
      | none => left; rfl
      | some p =>
        cases hs : pathSearchUsers p with
        | none => left; simp only [hs]
        | some d =>
          right
          obtain ⟨h1, h2⟩ := pathSearchUsers_spec p d hs
          simp only [hs]
          exact ⟨h1, h2⟩

-- ==========================
-- C5: license extraction
-- ==========================

theorem takeWhile_all (p : Char → Bool) (l : List Char) :
    (l.takeWhile p).all p = true := by
  apply List.all_eq_true.mpr
  intro c hc
  exact List.mem_takeWhile_imp hc

theorem suffixTry_spec (r : List Char) :
    ∀ j g, suffixTry r j = some g → g ≠ [] ∧ g.all nonDelim = true := by
  intro j
  induction j with
  | zero =>
    intro g h
    unfold suffixTry at h
    split at h
    · exact absurd h (by simp)
    · rename_i c cs heq
      injection h with h
      subst h
      exact ⟨by simp, heq ▸ takeWhile_all nonDelim r⟩
  | succ j ih =>
    intro g h
    unfold suffixTry at h
    split at h
    · exact ih g h
    · rename_i c cs heq
      injection h with h
      subst h
      exact ⟨by simp, heq ▸ takeWhile_all nonDelim (r.drop (j + 1))⟩

theorem suffixCapture_spec (r g : List Char) (h : suffixCapture r = some g) :
    g ≠ [] ∧ g.all nonDelim = true :=
  suffixTry_spec r _ g h

theorem searchLicense_spec (l : List Char) :
    ∀ g, searchLicense l = some g → g ≠ [] ∧ g.all nonDelim = true := by
  induction l with
  | nil => intro g h; exact absurd h (by simp [searchLicense])
  | cons c rest ih =>
    intro g h
    unfold searchLicense at h
    split at h
    · rename_i g' heq
      injection h with h
      subst h
      obtain ⟨x, _, hx⟩ := List.exists_of_findSome?_eq_some heq
      exact suffixCapture_spec x g' hx
    · exact ih g h

/-- C5.  License extraction: `"Info. Registration Number: AB-123, more
text"` yields `"AB-123"`; `"<p>License No: XYZ</p>"` yields `"XYZ"` (tags
replaced by spaces before matching); any text on which the keyword pattern
finds no match yields the empty string without error; and whenever the
pattern does match, the result is the whitespace-normalized captured group,
which is non-empty and stops before any comma or line break. -/
theorem license_extraction_C5 :
    extract_license_code (.str "Info. Registration Number: AB-123, more text") = "AB-123"
    ∧ extract_license_code (.str "<p>License No: XYZ</p>") = "XYZ"
    ∧ (∀ s : String, searchLicense (stripTags s.data) = Option.none →
        extract_license_code (.str s) = "")
    ∧ (∀ (s : String) (g : List Char), searchLicense (stripTags s.data) = some g →
        extract_license_code (.str s) = wsNormalize g ∧ g ≠ [] ∧ g.all nonDelim = true) := by
  refine ⟨by rfl, by rfl, ?_, ?_⟩
  · intro s h
    by_cases hs : s = ""
    · subst hs; rfl
    · have ht : pyTruthy (.str s) = true := by simp [pyTruthy, hs]
      simp [extract_license_code, ht, pyStr, h]
  · intro s g h
    have hs : s ≠ "" := by
      intro he
      subst he
      exact absurd h (by simp [stripTags, stripTagsFuel, searchLicense])
    have ht : pyTruthy (.str s) = true := by simp [pyTruthy, hs]
    refine ⟨?_, searchLicense_spec _ g h⟩
    simp [extract_license_code, ht, pyStr, h]

/-- Witness for C5's conditional parts at `"no matching keyword here"`
(no pattern match) and `"Permit No: P-9"` (pattern match capturing
`P-9`). -/
theorem license_extraction_C5_witness :
    extract_license_code (.str "no matching keyword here") = ""
    ∧ (extract_license_code (.str "Permit No: P-9") = wsNormalize "P-9".data
        ∧ "P-9".data ≠ [] ∧ "P-9".data.all nonDelim = true) :=
  ⟨license_extraction_C5.2.2.1 "no matching keyword here" (by rfl),
   license_extraction_C5.2.2.2 "Permit No: P-9" "P-9".data (by rfl)⟩

-- ==========================
-- C6: enumeration deduplication and field priority
-- ==========================

theorem itemRoomId_ok (it : PyVal) (h : listingShapeOk it = true) :
    itemRoomId it = .ok (specItemId it) := by
  cases it with
  | dict es =>
    unfold itemRoomId specItemId
    by_cases h1 : pyTruthy (aget es "room_id" .none) = true
    · simp [h1]
    · have h1f : pyTruthy (aget es "room_id" .none) = false :=
        Bool.eq_false_iff.mpr h1
      by_cases h2 : pyTruthy (aget es "id" .none) = true
      · simp [h1f, h2]
      · have h2f : pyTruthy (aget es "id" .none) = false :=
          Bool.eq_false_iff.mpr h2
        unfold listingShapeOk at h
        simp only [h1f, h2f, Bool.false_or] at h
        cases hl : aget es "listing" (.dict []) with
        | dict ls =>
          by_cases h3 : pyTruthy (aget ls "id" .none) = true
          · simp [h1f, h2f, hl, h3]
          · simp [h1f, h2f, hl, Bool.eq_false_iff.mpr h3]
        | none => rw [hl] at h; exact absurd h (by simp)
        | str s => rw [hl] at h; exact absurd h (by simp)
        | int n => rw [hl] at h; exact absurd h (by simp)
        | list xs => rw [hl] at h; exact absurd h (by simp)
  | none => rfl
  | str s =>
    simp only [itemRoomId, specItemId]
    split <;> simp [*]
  | int n =>
    simp only [itemRoomId, specItemId]
    split <;> simp [*]
  | list xs =>
    simp only [itemRoomId, specItemId]
    split <;> simp [*]

theorem extractRoomIds_wellShaped (items : List PyVal)
    (h : ∀ it ∈ items, listingShapeOk it = true) :
    extractRoomIds items = .ok (items.filterMap specItemId) := by
  induction items with
  | nil => rfl
  | cons it rest ih =>
    have hit := itemRoomId_ok it (h it (by simp))
    have hrest := ih (fun x hx => h x (by simp [hx]))
    unfold extractRoomIds
    rw [hit]
    cases hsi : specItemId it with
    | none => simp only [List.filterMap_cons, hsi]; exact hrest
    | some rid =>
      simp only [List.filterMap_cons, hsi]
      rw [hrest]

/-- C6 counterexample: the dict item `{"listing": 7}` yields no identifier,
yet enumeration raises (`.get("id")` on the non-dict value `7` is an
`AttributeError`, uncaught) instead of skipping the item, refuting the
claim's "skips items yielding no identifier without error". -/
theorem enumeration_C6_cex :
    roomIdsOfListings [.dict [("listing", .int 7)]] = .error () := by rfl

/-- C6 amended.  Enumeration extracts each dict item's identifier using
`room_id`, then `id`, then nested `listing.id` in priority order, coerces
it to a string, skips items yielding no identifier and deduplicates
preserving first-seen order — provided that whenever both `room_id` and
`id` are falsy, a present `listing` field is itself a dict (an item whose
`listing` field is a non-dict value raises and aborts enumeration instead
of being skipped).  In particular identifiers `["5","3","5","7"]` yield
`["5","3","7"]`. -/
theorem enumeration_C6_amended :
    roomIdsOfListings
        [.dict [("room_id", .str "5")], .dict [("room_id", .str "3")],
         .dict [("room_id", .str "5")], .dict [("room_id", .str "7")]] =
      .ok ["5", "3", "7"]
    ∧ ∀ items : List PyVal, (∀ it ∈ items, listingShapeOk it = true) →
        roomIdsOfListings items = .ok (dedupFirst (items.filterMap specItemId)) := by
  refine ⟨by rfl, ?_⟩
  intro items h
  unfold roomIdsOfListings
  rw [extractRoomIds_wellShaped items h]

/-- Witness for C6's conditional part at the four-item dedup example. -/
theorem enumeration_C6_witness :
    roomIdsOfListings
        [.dict [("room_id", .str "5")], .dict [("room_id", .str "3")],
         .dict [("room_id", .str "5")], .dict [("room_id", .str "7")]] =
      .ok (dedupFirst
        (([.dict [("room_id", .str "5")], .dict [("room_id", .str "3")],
           .dict [("room_id", .str "5")], .dict [("room_id", .str "7")]] :
            List PyVal).filterMap specItemId)) :=
  enumeration_C6_amended.2
    [.dict [("room_id", .str "5")], .dict [("room_id", .str "3")],
     .dict [("room_id", .str "5")], .dict [("room_id", .str "7")]]
    (by decide)

-- ==========================
-- Pipeline state lemmas
-- ==========================

theorem get_api_credentials_st (w : World) (st : St) :
    (get_api_credentials w st).2.file = st.file
    ∧ (get_api_credentials w st).2.sleeps = st.sleeps
    ∧ (get_api_credentials w st).2.lookups = st.lookups
    ∧ (get_api_credentials w st).2.hostCache = st.hostCache
    ∧ (get_api_credentials w st).2.csvWrites = st.csvWrites := by
  cases hk : st.apiKeyCache with
  | some k => simp [get_api_credentials, hk]
  | none => cases ha : w.apiKey <;> simp [get_api_credentials, hk, ha]

theorem fetch_host_st (w : World) (hid : String) (st : St) :
    (fetch_host_profile_fields w hid st).2.file = st.file
    ∧ (fetch_host_profile_fields w hid st).2.sleeps = st.sleeps
    ∧ (fetch_host_profile_fields w hid st).2.csvWrites = st.csvWrites := by
  by_cases h0 : hid = ""
  · simp [fetch_host_profile_fields, h0]
  · obtain ⟨hf, hs, _, _, hw⟩ := get_api_credentials_st w st
    cases hc : st.hostCache.find? (fun e => e.1 = hid) with
    | some e => simp [fetch_host_profile_fields, h0, hc]
    | none => simp [fetch_host_profile_fields, h0, hc, hf, hs, hw]

theorem fetch_host_lookups_miss (w : World) (hid : String) (st : St) (h0 : hid ≠ "")
    (hc : st.hostCache.find? (fun e => e.1 = hid) = Option.none) :
    (fetch_host_profile_fields w hid st).2.lookups = st.lookups ++ [hid] := by
  obtain ⟨_, _, hl, _, _⟩ := get_api_credentials_st w st
  simp [fetch_host_profile_fields, h0, hc, hl]

theorem extract_listing_st (w : World) (rid : String) (d : PyVal) (st : St) :
    (extract_listing_data w rid d st).2.file = st.file
    ∧ (extract_listing_data w rid d st).2.sleeps = st.sleeps
    ∧ (extract_listing_data w rid d st).2.csvWrites = st.csvWrites := by
  cases d with
  | dict es =>
    obtain ⟨hf, hs, hw⟩ := fetch_host_st w
      (match aget es "host" (.dict []) with
       | .dict hs => pyStr (aget hs "id" (.str ""))
       | _ => "") st
    exact ⟨hf, hs, hw⟩
  | none => exact ⟨rfl, rfl, rfl⟩
  | str s => exact ⟨rfl, rfl, rfl⟩
  | int n => exact ⟨rfl, rfl, rfl⟩
  | list xs => exact ⟨rfl, rfl, rfl⟩

theorem extract_listing_room_id (w : World) (rid : String) (d : PyVal) (st : St)
    (rec : Record) (h : (extract_listing_data w rid d st).1 = .ok rec) :
    rec.room_id = rid := by
  cases d with
  | dict es =>
    simp only [extract_listing_data] at h
    injection h with h
    rw [← h]
  | none => exact absurd h (by simp [extract_listing_data])
  | str s => exact absurd h (by simp [extract_listing_data])
  | int n => exact absurd h (by simp [extract_listing_data])
  | list xs => exact absurd h (by simp [extract_listing_data])

theorem processOne_sleeps (w : World) (rid : String) (st : St) :
    (processOne w rid st).2.sleeps =
      st.sleeps ++ (get_listing_details w rid).2.2.map SleepEv.backoff
        ++ (if emptySkip w rid = true then [] else [SleepEv.interRequest]) := by
  cases hg : (get_listing_details w rid).1 with
  | none => simp [processOne, emptySkip, hg]
  | some exc =>
    cases exc with
    | error e => simp [processOne, emptySkip, hg, addSleep]
    | ok d =>
      by_cases ht : pyTruthy d = true
      · have hext := (extract_listing_st w rid d
          { st with sleeps := st.sleeps ++ (get_listing_details w rid).2.2.map SleepEv.backoff }).2.1
        cases hex : (extract_listing_data w rid d
            { st with sleeps := st.sleeps ++ (get_listing_details w rid).2.2.map SleepEv.backoff }).1 with
        | error e =>
          simp [processOne, emptySkip, hg, ht, hex, addSleep, hext]
        | ok rec =>
          simp [processOne, emptySkip, hg, ht, hex, addSleep, saveProcessed, hext]
      · have htf : pyTruthy d = false := Bool.eq_false_iff.mpr ht
        simp [processOne, emptySkip, hg, htf]

theorem processOne_file (w : World) (rid : String) (st : St) :
    (processOne w rid st).2.file =
      st.file ++ ((processOne w rid st).1.toList.map (fun r => r.room_id)) := by
  cases hg : (get_listing_details w rid).1 with
  | none => simp [processOne, hg]
  | some exc =>
    cases exc with
    | error e => simp [processOne, hg, addSleep]
    | ok d =>
      by_cases ht : pyTruthy d = true
      · have hext := (extract_listing_st w rid d
          { st with sleeps := st.sleeps ++ (get_listing_details w rid).2.2.map SleepEv.backoff }).1
        cases hex : (extract_listing_data w rid d
            { st with sleeps := st.sleeps ++ (get_listing_details w rid).2.2.map SleepEv.backoff }).1 with
        | error e =>
          simp [processOne, hg, ht, hex, addSleep, hext]
        | ok rec =>
          have hrid := extract_listing_room_id w rid d _ rec hex
          simp [processOne, hg, ht, hex, addSleep, saveProcessed, hext, hrid]
      · have htf : pyTruthy d = false := Bool.eq_false_iff.mpr ht
        simp [processOne, hg, htf]

theorem processOne_some (w : World) (rid : String) (st : St) (rec : Record)
    (h : (processOne w rid st).1 = some rec) :
    rec.room_id = rid ∧ skipsDetail w rid = false := by
  cases hg : (get_listing_details w rid).1 with
  | none => exact absurd h (by simp [processOne, hg])
  | some exc =>
    cases exc with
    | error e => exact absurd h (by simp [processOne, hg])
    | ok d =>
      by_cases ht : pyTruthy d = true
      · cases hex : (extract_listing_data w rid d
            { st with sleeps := st.sleeps ++ (get_listing_details w rid).2.2.map SleepEv.backoff }).1 with
        | error e => exact absurd h (by simp [processOne, hg, ht, hex])
        | ok rec2 =>
          have h2 : rec2 = rec := by
            have := h
            simp [processOne, hg, ht, hex] at this
            exact this
          subst h2
          exact ⟨extract_listing_room_id w rid d _ rec2 hex,
            by simp [skipsDetail, hg, ht]⟩
      · have htf : pyTruthy d = false := Bool.eq_false_iff.mpr ht
        exact absurd h (by simp [processOne, hg, htf])

theorem processOne_skip (w : World) (rid : String) (st : St)
    (h : skipsDetail w rid = true) : (processOne w rid st).1 = Option.none := by
  cases hg : (get_listing_details w rid).1 with
  | none => simp [processOne, hg]
  | some exc =>
    cases exc with
    | error e => simp [processOne, hg]
    | ok d =>
      have htf : pyTruthy d = false := by
        simp [skipsDetail, hg] at h
        exact h
      simp [processOne, hg, htf]

theorem runLoop_file (w : World) (l : List String) :
    ∀ st, (runLoop w l st).2.file =
      st.file ++ (runLoop w l st).1.map (fun r => r.room_id) := by
  induction l with
  | nil => intro st; simp [runLoop]
  | cons rid rest ih =>
    intro st
    have h1 := processOne_file w rid st
    have h2 := ih (processOne w rid st).2
    cases hp : (processOne w rid st).1 with
    | none =>
      simp only [runLoop]
      rw [h2, h1, hp]
      simp [hp]
    | some rec =>
      simp only [runLoop]
      rw [h2, h1, hp]
      simp [hp, List.append_assoc]

theorem runLoop_mem (w : World) (l : List String) :
    ∀ st rec, rec ∈ (runLoop w l st).1 → skipsDetail w rec.room_id = false := by
  induction l with
  | nil => intro st rec h; simp [runLoop] at h
  | cons rid rest ih =>
    intro st rec h
    simp only [runLoop, List.mem_append] at h
    cases h with
    | inl h =>
      cases hp : (processOne w rid st).1 with
      | none => rw [hp] at h; simp at h
      | some rec2 =>
        rw [hp] at h
        simp at h
        obtain ⟨he, hs⟩ := processOne_some w rid st rec2 hp
        rw [h, he]
        exact hs
    | inr h => exact ih (processOne w rid st).2 rec h

theorem get_room_ids_fresh (w : World) (hid : String) (file0 : List String) :
    get_room_ids_from_host w hid (csvPush (initSt file0) []) =
      (get_room_ids_pure w (acquiredKey w) hid, postEnumSt w hid file0) := by
  cases ha : w.apiKey <;>
    simp [get_room_ids_from_host, get_api_credentials, csvPush, initSt, acquiredKey,
      postEnumSt, ha]

theorem mainAfterResolve_eq (w : World) (hid : String) (file0 : List String) :
    mainAfterResolve w hid file0 =
      (match get_room_ids_pure w (acquiredKey w) hid with
       | .error _ => (.crashed, postEnumSt w hid file0)
       | .ok room_ids =>
         let p := runLoop w
           (room_ids.filter (fun rid => !(processedSet file0).contains rid))
           (postEnumSt w hid file0)
         (.completed p.1, csvPush p.2 p.1)) := by
  unfold mainAfterResolve
  simp only [get_room_ids_fresh]
  rfl

-- ==========================
-- C7: aborted path
-- ==========================

/-- C7 counterexample: with the upstream entirely failing, a run with a
missing host reference (`HOST_URL` empty) and a run with an unresolvable
one (`"not a url"`) both terminate early with **zero** CSV writes — no
empty output table is emitted on the aborted path (the placeholder empty
table of line 305 is written only after resolution succeeds), refuting the
claim's "emits an empty output table (header-only CSV)". -/
theorem aborted_C7_cex :
    (mainRun wEmpty "" []).1 = .missingHostUrl
    ∧ (mainRun wEmpty "" []).2.csvWrites = []
    ∧ (mainRun wEmpty "not a url" []).1 = .unresolvedHost
    ∧ (mainRun wEmpty "not a url" []).2.csvWrites = [] :=
  ⟨rfl, rfl, rfl, rfl⟩

/-- C7 amended.  For every run whose host reference is missing or fails
resolution, the pipeline terminates early before any network enumeration
(no enumeration call, no host lookup, no sleep) and emits **no** output
artifact: the CSV is never written and the progress log is unchanged. -/
theorem aborted_C7_amended (w : World) (env : String) (file0 : List String)
    (h : pyStripS env = "" ∨ parse_host_id_from_url (pyStripS env) = "") :
    ((mainRun w env file0).1 = .missingHostUrl ∨ (mainRun w env file0).1 = .unresolvedHost)
    ∧ (mainRun w env file0).2.csvWrites = []
    ∧ (mainRun w env file0).2.enumCalls = []
    ∧ (mainRun w env file0).2.lookups = []
    ∧ (mainRun w env file0).2.sleeps = []
    ∧ (mainRun w env file0).2.file = file0 := by
  by_cases h1 : pyStripS env = ""
  · simp [mainRun, h1, initSt]
  · have h2 : parse_host_id_from_url (pyStripS env) = "" := h.resolve_left h1
    simp [mainRun, h1, h2, initSt]

/-- Witness for C7's amended statement at the empty host reference. -/
theorem aborted_C7_witness :
    ((mainRun wEmpty "" []).1 = .missingHostUrl ∨ (mainRun wEmpty "" []).1 = .unresolvedHost)
    ∧ (mainRun wEmpty "" []).2.csvWrites = []
    ∧ (mainRun wEmpty "" []).2.enumCalls = []
    ∧ (mainRun wEmpty "" []).2.lookups = []
    ∧ (mainRun wEmpty "" []).2.sleeps = []
    ∧ (mainRun wEmpty "" []).2.file = [] :=
  aborted_C7_amended wEmpty "" [] (Or.inl rfl)

-- ==========================
-- C9: suspension points
-- ==========================

/-- C9 counterexample: a resolved run whose single listing `"9"` exhausts
all three fetch attempts sleeps `[backoff 2, backoff 4, interRequest]` and
completes with zero processed listings — the inter-request delay **is**
taken after a listing skipped for a raised fetch error, refuting the
claim's "no inter-request delay is taken after a listing that is skipped
because its fetch failed". -/
theorem suspension_C9_cex :
    (mainRun wFail "12345" []).1 = .completed []
    ∧ (mainRun wFail "12345" []).2.sleeps =
        [.backoff 2, .backoff 4, .interRequest]
    ∧ (mainRun wFail "12345" []).2.file = [] :=
  ⟨rfl, rfl, rfl⟩

/-- C9 amended.  Per loop iteration, the thread suspends exactly at the
retry backoff sleeps of that identifier's fetch and then at the fixed
inter-request delay — the latter taken after successfully processed
listings *and* after listings skipped for a raised fetch error (the raise
is caught and falls through to the sleep at line 332), but not after a
listing skipped for an empty/absent payload (its `continue` bypasses the
sleep). -/
theorem suspension_C9_amended (w : World) (rid : String) (st : St) :
    (processOne w rid st).2.sleeps =
      st.sleeps ++ (get_listing_details w rid).2.2.map SleepEv.backoff
        ++ (if emptySkip w rid = true then [] else [SleepEv.interRequest]) :=
  processOne_sleeps w rid st

-- ==========================
-- C10: null host id
-- ==========================

/-- C10.  For every detail payload whose `host` sub-object is a dict
mapping `id` to `None`, `extract_listing_data` sets the record's host
identifier to the non-empty string `"None"` (`str(None)`), the record's
`host_profile_url` to `https://www.airbnb.com/users/show/None`, and the
host-profile lookup is performed over the network with the key `"None"`
(recorded in `lookups`) instead of short-circuiting to the all-empty
profile reserved for an empty host identifier. -/
theorem null_host_C10 (w : World) (rid : String) (es hs : List (String × PyVal))
    (st : St)
    (hhost : aget es "host" (.dict []) = .dict hs)
    (hid : aget hs "id" (.str "") = .none)
    (hcache : st.hostCache.find? (fun e => e.1 = "None") = Option.none) :
    ∃ rec st2, extract_listing_data w rid (.dict es) st = (.ok rec, st2)
      ∧ rec.host_id = "None"
      ∧ rec.host_id ≠ ""
      ∧ rec.host_profile_url = "https://www.airbnb.com/users/show/None"
      ∧ st2.lookups = st.lookups ++ ["None"] := by
  have hkey : (match aget es "host" (.dict []) with
      | PyVal.dict hs => pyStr (aget hs "id" (.str ""))
      | _ => "") = "None" := by
    rw [hhost]
    show pyStr (aget hs "id" (.str "")) = "None"
    rw [hid]
    rfl
  simp only [extract_listing_data, hkey]
  refine ⟨_, _, rfl, ?_, ?_, ?_, ?_⟩
  · rfl
  · show ("None" : String) ≠ ""
    decide
  · rfl
  · exact fetch_host_lookups_miss w "None" st (by decide) hcache

/-- Witness for C10 at a concrete payload `{"host": {"id": None}}` and a
fresh state. -/
theorem null_host_C10_witness :
    ∃ rec st2,
      extract_listing_data wEmpty "42" (.dict [("host", .dict [("id", .none)])])
          (initSt []) = (.ok rec, st2)
        ∧ rec.host_id = "None"
        ∧ rec.host_id ≠ ""
        ∧ rec.host_profile_url = "https://www.airbnb.com/users/show/None"
        ∧ st2.lookups = (initSt []).lookups ++ ["None"] :=
  null_host_C10 wEmpty "42" [("host", .dict [("id", .none)])] [("id", .none)]
    (initSt []) rfl rfl rfl

-- ==========================
-- C1 / C2: run dissection
-- ==========================

theorem mainRun_completed (w : World) (env : String) (file0 : List String)
    (recs : List Record) (st : St)
    (hrun : mainRun w env file0 = (.completed recs, st)) :
    pyStripS env ≠ ""
    ∧ parse_host_id_from_url (pyStripS env) ≠ ""
    ∧ ∃ ids, get_room_ids_pure w (acquiredKey w) (parse_host_id_from_url (pyStripS env)) = .ok ids
        ∧ recs = (runLoop w (ids.filter (fun r => !(processedSet file0).contains r))
            (postEnumSt w (parse_host_id_from_url (pyStripS env)) file0)).1
        ∧ st = csvPush (runLoop w (ids.filter (fun r => !(processedSet file0).contains r))
            (postEnumSt w (parse_host_id_from_url (pyStripS env)) file0)).2 recs := by
  unfold mainRun at hrun
  by_cases h1 : pyStripS env = ""
  · rw [if_pos h1] at hrun
    exact absurd (congrArg Prod.fst hrun) (by simp)
  · rw [if_neg h1] at hrun
    by_cases h2 : parse_host_id_from_url (pyStripS env) = ""
    · rw [if_pos h2] at hrun
      exact absurd (congrArg Prod.fst hrun) (by simp)
    · rw [if_neg h2, mainAfterResolve_eq] at hrun
      refine ⟨h1, h2, ?_⟩
      cases hok : get_room_ids_pure w (acquiredKey w) (parse_host_id_from_url (pyStripS env)) with
      | error e =>
        rw [hok] at hrun
        exact absurd (congrArg Prod.fst hrun) (by simp)
      | ok ids =>
        rw [hok] at hrun
        refine ⟨ids, rfl, ?_, ?_⟩
        · have := congrArg Prod.fst hrun
          simp only [] at this
          injection this with h3
          exact h3.symm
        · have h3 := congrArg Prod.fst hrun
          simp only [] at h3
          injection h3 with h3
          have h4 := congrArg Prod.snd hrun
          simp only [] at h4
          rw [← h4, h3]

/-- C2.  Failure isolation: in any completed run, if the detail fetch for
an identifier exhausts all retries and raises, or returns an empty or
absent payload, then the final output table contains no row for that
identifier, the progress log gains no entry for it (the appended lines are
exactly the room ids of the emitted records, which exclude it), and the
processing loop continues with the next identifier in enumeration order
rather than aborting. -/
theorem failure_isolation_C2 (w : World) (env : String) (file0 : List String)
    (recs : List Record) (st : St) (rid : String)
    (hrun : mainRun w env file0 = (.completed recs, st))
    (hskip : skipsDetail w rid = true) :
    (∀ r ∈ recs, r.room_id ≠ rid)
    ∧ st.file = file0 ++ recs.map (fun r => r.room_id)
    ∧ rid ∉ recs.map (fun r => r.room_id)
    ∧ (∀ post st0, runLoop w (rid :: post) st0 = runLoop w post (processOne w rid st0).2) := by
  obtain ⟨h1, h2, ids, hok, hrecs, hst⟩ := mainRun_completed w env file0 recs st hrun
  have hnorow : ∀ r ∈ recs, r.room_id ≠ rid := by
    intro r hr he
    have hf := runLoop_mem w
      (ids.filter (fun r => !(processedSet file0).contains r))
      (postEnumSt w (parse_host_id_from_url (pyStripS env)) file0) r (hrecs ▸ hr)
    rw [he, hskip] at hf
    exact absurd hf (by simp)
  refine ⟨hnorow, ?_, ?_, ?_⟩
  · have hfile := runLoop_file w
      (ids.filter (fun r => !(processedSet file0).contains r))
      (postEnumSt w (parse_host_id_from_url (pyStripS env)) file0)
    rw [hst, csvPush]
    simp only []
    rw [hfile, ← hrecs]
    rfl
  · intro hmem
    obtain ⟨r, hr, he⟩ := List.mem_map.mp hmem
    exact hnorow r hr he
  · intro post st0
    have hp := processOne_skip w rid st0 hskip
    simp only [runLoop, hp, Option.toList, List.nil_append]

/-- Witness for C2: in the world `wFail` (single listing `"9"`, every
fetch attempt raising), the completed run emits no row and no progress
entry for `"9"`. -/
theorem failure_isolation_C2_witness :
    (∀ r ∈ ([] : List Record), r.room_id ≠ "9")
    ∧ (mainRun wFail "12345" []).2.file = [] ++ ([] : List Record).map (fun r => r.room_id)
    ∧ "9" ∉ ([] : List Record).map (fun r => r.room_id)
    ∧ (∀ post st0, runLoop wFail ("9" :: post) st0 = runLoop wFail post (processOne wFail "9" st0).2) :=
  failure_isolation_C2 wFail "12345" [] [] (mainRun wFail "12345" []).2 "9" (by rfl) (by rfl)

/-- C1.  Re-run idempotence: if a run completes and every enumerated
listing identifier is marked processed in the resulting progress log, then
a second run with the same `HOST_URL` against the same unchanged upstream
responses and that progress log completes while processing zero additional
listings (no records, no sleeps), appends nothing to the progress log, and
finishes by writing an output table containing zero rows (its CSV writes
are the initial placeholder and a final zero-row table). -/
theorem idempotence_C1 (w : World) (env : String) (file0 : List String)
    (recs : List Record) (st1 : St)
    (hrun : mainRun w env file0 = (.completed recs, st1))
    (hmark : ∀ ids, get_room_ids_pure w (acquiredKey w)
        (parse_host_id_from_url (pyStripS env)) = .ok ids →
        ∀ rid ∈ ids, rid ∈ processedSet st1.file) :
    ∃ st2, mainRun w env st1.file = (.completed [], st2)
      ∧ st2.file = st1.file
      ∧ st2.csvWrites = [[], []]
      ∧ st2.sleeps = []
      ∧ st2.lookups = [] := by
  obtain ⟨h1, h2, ids, hok, _, _⟩ := mainRun_completed w env file0 recs st1 hrun
  have hfilter : ids.filter (fun rid => !(processedSet st1.file).contains rid) = [] := by
    apply List.filter_eq_nil_iff.mpr
    intro a ha
    have hmem := hmark ids hok a ha
    simpa using hmem
  unfold mainRun
  rw [if_neg h1, if_neg h2, mainAfterResolve_eq, hok]
  simp only [hfilter, runLoop]
  exact ⟨_, rfl, rfl, rfl, rfl, rfl⟩

/-- Witness for C1: a first run of `wOne` processes listing `"7"` and marks
it; the second run over the resulting progress log processes nothing and
writes a zero-row table. -/
theorem idempotence_C1_witness :
    ∃ st2, mainRun wOne "12345" (mainRun wOne "12345" []).2.file = (.completed [], st2)
      ∧ st2.file = (mainRun wOne "12345" []).2.file
      ∧ st2.csvWrites = [[], []]
      ∧ st2.sleeps = []
      ∧ st2.lookups = [] := by
  apply idempotence_C1 wOne "12345" [] [recC1] (mainRun wOne "12345" []).2 (by rfl)
  intro ids h rid hr
  rw [show get_room_ids_pure wOne (acquiredKey wOne)
      (parse_host_id_from_url (pyStripS "12345")) = Except.ok ["7"] from rfl] at h
  injection h with h
  subst h
  simp only [List.mem_singleton] at hr
  subst hr
  decide

end ScrapeHost
